import Mathlib

/-!
Verification development for the duckdb-elasticsearch extension.

The definitions below are a shallow embedding of the extension's C++ sources:
  - `src/elasticsearch_filter_pushdown.cpp` (filter translation to the ES query DSL),
  - `src/elasticsearch_client.cpp` (retrying HTTP client and scroll lifecycle),
  - `src/elasticsearch_optimizer.cpp` / `src/elasticsearch_query.cpp` (LIMIT/OFFSET
    pushdown and the scroll-driven scan),
  - `src/elasticsearch_common.cpp` (mapping merge, document sampling, field naming),
  - `src/elasticsearch_cache.cpp` (bind cache).
JSON documents built through yyjson are modelled by an inductive `Json` tree;
C++ exceptions are modelled by `Except String`; functions returning a null
`yyjson_mut_val *` to mean "not translatable" return `Option Json`.
-/

namespace ESExt

/-- A JSON tree, modelling yyjson documents and mutable query fragments.
Object fields keep insertion order, as yyjson mutable objects do. -/
inductive Json where
  | null
  | bool (b : Bool)
  | num (n : Int)
  | str (s : String)
  | arr (items : List Json)
  | obj (fields : List (String × Json))
deriving Repr

/-- A single-quote character, used when assembling error messages
(`InvalidInputException` format strings in the C++ quote field names). -/
def squote : String := String.mk [Char.ofNat 39]

/-- A backslash character (escape character in SQL LIKE patterns and in
Elasticsearch wildcard syntax). -/
def backslashChar : Char := Char.ofNat 92

/-- `yyjson_obj_get`: first field with the given key, if any. -/
def jsonObjGet : Json → String → Option Json
  | .obj fields, k => (fields.find? (fun p => p.1 == k)).map (fun p => p.2)
  | _, _ => none

/-- `yyjson_is_obj`. -/
def Json.isObjV : Json → Bool
  | .obj _ => true
  | _ => false

/-- `yyjson_is_arr`. -/
def Json.isArrV : Json → Bool
  | .arr _ => true
  | _ => false

/-- DuckDB constant `Value`s as they reach the translator (the fragment of
`DuckDBValueToJSON` in `elasticsearch_common.cpp` that the pushed-down
comparison and IN filters exercise). -/
inductive DValue where
  | int (i : Int)
  | str (s : String)
  | boolean (b : Bool)
deriving Repr, DecidableEq

/-- `DuckDBValueToJSON` (`elasticsearch_common.cpp`), restricted to the
constant kinds modelled by `DValue`. -/
def duckDBValueToJSON : DValue → Json
  | .int i => .num i
  | .str s => .str s
  | .boolean b => .bool b

/-- `GetElasticsearchFieldName` (`elasticsearch_common.cpp:1460`): text fields
with a `.keyword` subfield are queried through the subfield. -/
def getElasticsearchFieldName (columnName : String) (isTextField hasKeywordSubfield : Bool) :
    String :=
  if isTextField && hasKeywordSubfield then columnName ++ ".keyword" else columnName

/-- The `InvalidInputException` message thrown for filters on a text field
lacking a `.keyword` subfield (identical text in `TranslateConstantComparison`,
`TranslateInFilter`, `TranslateLikePattern` and
`ElasticsearchPushdownComplexFilter`). -/
def textFieldErrorMsg (field : String) : String :=
  "Cannot filter on text field " ++ squote ++ field ++ squote ++
    " because it lacks a .keyword subfield. Options:\n" ++
    "  - Add a .keyword subfield to the Elasticsearch mapping\n" ++
    "  - Use the " ++ squote ++ "query" ++ squote ++
    " parameter with native Elasticsearch text queries"

/-- The comparison kinds handled by `TranslateConstantComparison`; `other`
stands for every remaining `ExpressionType`, which falls into the
`default: return nullptr` branch. -/
inductive CompOp where
  | eq | neq | gt | gte | lt | lte | other
deriving Repr, DecidableEq

/-- `TranslateConstantComparison` (`elasticsearch_filter_pushdown.cpp:172`). -/
def translateConstantComparison (fieldName : String) (isTextField hasKeywordSubfield : Bool)
    (op : CompOp) (constant : DValue) : Except String (Option Json) :=
  if isTextField && !hasKeywordSubfield then
    .error (textFieldErrorMsg fieldName)
  else
    let esField := getElasticsearchFieldName fieldName isTextField hasKeywordSubfield
    let value := duckDBValueToJSON constant
    match op with
    | .eq => .ok (some (.obj [("term", .obj [(esField, value)])]))
    | .neq =>
        .ok (some (.obj [("bool", .obj [("must_not", .obj [("term", .obj [(esField, value)])])])]))
    | .gt => .ok (some (.obj [("range", .obj [(esField, .obj [("gt", value)])])]))
    | .gte => .ok (some (.obj [("range", .obj [(esField, .obj [("gte", value)])])]))
    | .lt => .ok (some (.obj [("range", .obj [(esField, .obj [("lt", value)])])]))
    | .lte => .ok (some (.obj [("range", .obj [(esField, .obj [("lte", value)])])]))
    | .other => .ok none

/-- `TranslateIsNull` (`elasticsearch_filter_pushdown.cpp:281`). -/
def translateIsNull (fieldName : String) : Json :=
  .obj [("bool", .obj [("must_not", .obj [("exists", .obj [("field", .str fieldName)])])])]

/-- `TranslateIsNotNull` (`elasticsearch_filter_pushdown.cpp:297`). -/
def translateIsNotNull (fieldName : String) : Json :=
  .obj [("exists", .obj [("field", .str fieldName)])]

/-- `TranslateInFilter` (`elasticsearch_filter_pushdown.cpp:370`). -/
def translateInFilter (fieldName : String) (isTextField hasKeywordSubfield : Bool)
    (values : List DValue) : Except String (Option Json) :=
  if isTextField && !hasKeywordSubfield then
    .error (textFieldErrorMsg fieldName)
  else
    let esField := getElasticsearchFieldName fieldName isTextField hasKeywordSubfield
    .ok (some (.obj [("terms", .obj [(esField, .arr (values.map duckDBValueToJSON))])]))

/-- The SQL-LIKE to Elasticsearch-wildcard conversion loop of
`TranslateLikePattern` (`elasticsearch_filter_pushdown.cpp:565-605`), with the
`escape_next` state threaded explicitly. -/
def likeToWildcardChars : List Char → Bool → List Char
  | [], _ => []
  | c :: rest, escapeNext =>
    if escapeNext then
      -- previous char was the SQL escape: add this char literally, escaping
      -- Elasticsearch wildcard chars if needed
      (if c = '*' ∨ c = '?' then [backslashChar, c] else [c]) ++ likeToWildcardChars rest false
    else if c = '%' then '*' :: likeToWildcardChars rest false
    else if c = '_' then '?' :: likeToWildcardChars rest false
    else if c = backslashChar then likeToWildcardChars rest true
    else if c = '*' ∨ c = '?' then backslashChar :: c :: likeToWildcardChars rest false
    else c :: likeToWildcardChars rest false

/-- `TranslateLikePattern` (`elasticsearch_filter_pushdown.cpp:488`).
The C++ checks `percent_pos == pattern.length() - 1 && pattern.find == pattern.rfind`
for the simple-prefix case; that condition holds exactly when the pattern
contains a single percent positioned as the last character, which is how it is
phrased below. -/
def translateLikePattern (fieldName pattern : String) (isTextField hasKeywordSubfield
    caseInsensitive : Bool) : Except String Json :=
  if isTextField && !hasKeywordSubfield then
    .error (textFieldErrorMsg fieldName)
  else
    let esField :=
      if isTextField && hasKeywordSubfield then fieldName ++ ".keyword" else fieldName
    let chars := pattern.toList
    let hasPercent := chars.contains '%'
    let hasUnderscore := chars.contains '_'
    if !hasPercent && !hasUnderscore then
      -- no wildcards, treat as exact match
      .ok (.obj [("term", .obj [(esField, .str pattern)])])
    else if hasPercent && !hasUnderscore
        && chars.count '%' = 1 && chars.getLast? = some '%' then
      -- simple prefix query
      let prefixValue : String := ⟨chars.dropLast⟩
      let prefixOpts : Json := .obj
        (("value", Json.str prefixValue) ::
          (if caseInsensitive then [("case_insensitive", Json.bool true)] else []))
      .ok (.obj [("prefix", .obj [(esField, prefixOpts)])])
    else
      let esPattern : String := ⟨likeToWildcardChars chars false⟩
      let wildcardValue : Json := .obj
        (("value", Json.str esPattern) ::
          (if caseInsensitive then [("case_insensitive", Json.bool true)] else []))
      .ok (.obj [("wildcard", .obj [(esField, wildcardValue)])])

/-- The LIKE-family function names recognised by `TranslateExpressionFilter`
(`elasticsearch_filter_pushdown.cpp:420` and `:446`). -/
inductive LikeFn where
  | likeOp          -- "~~"
  | likeEscapeOp    -- "like_escape"
  | ilikeOp         -- "~~*"
  | ilikeEscapeOp   -- "ilike_escape"
  | prefixOp        -- "prefix", from the LIKE optimization rule
  | suffixOp        -- "suffix"
  | containsOp      -- "contains"
deriving Repr, DecidableEq

/-- Case sensitivity per function name: `~~*` and `ilike_escape` are
case-insensitive; prefix/suffix/contains always come from case-sensitive LIKE. -/
def likeFnCaseInsensitive : LikeFn → Bool
  | .ilikeOp => true
  | .ilikeEscapeOp => true
  | _ => false

/-- The LIKE pattern handed to `TranslateLikePattern`: the raw pattern for the
LIKE operators, the reconstructed pattern for prefix/suffix/contains. -/
def likeFnPattern : LikeFn → String → String
  | .prefixOp, v => v ++ "%"
  | .suffixOp, v => "%" ++ v
  | .containsOp, v => "%" ++ v ++ "%"
  | _, v => v

/-- The `TableFilter` shapes reaching `TranslateFilter`
(`elasticsearch_filter_pushdown.cpp:112`).  `exprLike` is an
`ExpressionFilter` holding one of the LIKE-family functions with a constant
VARCHAR pattern; `exprOther` is any other expression (translated to null);
`otherFilter` is any unsupported `TableFilterType` (the `default` branch). -/
inductive TFilter where
  | constantComparison (op : CompOp) (constant : DValue)
  | isNullF
  | isNotNullF
  | conjAnd (children : List TFilter)
  | conjOr (children : List TFilter)
  | inF (values : List DValue)
  | exprLike (fn : LikeFn) (pattern : String)
  | exprOther
  | structExtract (childName : String) (child : TFilter)
  | otherFilter
deriving Repr

/-- `TranslateExpressionFilter` (`elasticsearch_filter_pushdown.cpp:401`),
restricted to the LIKE-family functions (geospatial functions are outside the
modelled fragment; every other expression shape returns null). -/
def translateExpressionFilter (columnName : String) (isTextField hasKeywordSubfield : Bool) :
    Option (LikeFn × String) → Except String (Option Json)
  | some (fn, raw) =>
      (translateLikePattern columnName (likeFnPattern fn raw) isTextField hasKeywordSubfield
        (likeFnCaseInsensitive fn)).map some
  | none => .ok none

mutual
/-- `TranslateFilter` (`elasticsearch_filter_pushdown.cpp:112`).  The text-field
lookups mirror `text_fields.count(column_name)` and
`text_fields_with_keyword.count(column_name)`. -/
def translateFilter (filter : TFilter) (columnName : String)
    (textFields textFieldsWithKeyword : List String) : Except String (Option Json) :=
  let isTextField := textFields.contains columnName
  let hasKeywordSubfield := textFieldsWithKeyword.contains columnName
  match filter with
  | .constantComparison op c =>
      translateConstantComparison columnName isTextField hasKeywordSubfield op c
  | .isNullF => .ok (some (translateIsNull columnName))
  | .isNotNullF => .ok (some (translateIsNotNull columnName))
  | .conjAnd children => do
      let translated ← translateChildren children columnName textFields textFieldsWithKeyword
      match translated with
      | [] => pure none
      | [q] => pure (some q)
      | qs => pure (some (.obj [("bool", .obj [("must", .arr qs)])]))
  | .conjOr children => do
      let translated ← translateChildren children columnName textFields textFieldsWithKeyword
      match translated with
      | [] => pure none
      | [q] => pure (some q)
      | qs => pure (some (.obj [("bool",
          .obj [("should", .arr qs), ("minimum_should_match", .num 1)])]))
  | .inF values => translateInFilter columnName isTextField hasKeywordSubfield values
  | .exprLike fn pattern =>
      translateExpressionFilter columnName isTextField hasKeywordSubfield (some (fn, pattern))
  | .exprOther => translateExpressionFilter columnName isTextField hasKeywordSubfield none
  | .structExtract childName child =>
      translateFilter child (columnName ++ "." ++ childName) textFields textFieldsWithKeyword
  | .otherFilter => .ok none

/-- The child loops of `TranslateConjunctionAnd` / `TranslateConjunctionOr`
(`elasticsearch_filter_pushdown.cpp:314-320, 345-351`): translate every child,
keep the non-null fragments in order, propagate thrown errors. -/
def translateChildren (children : List TFilter) (columnName : String)
    (textFields textFieldsWithKeyword : List String) : Except String (List Json) :=
  match children with
  | [] => .ok []
  | f :: rest => do
      let t ← translateFilter f columnName textFields textFieldsWithKeyword
      let ts ← translateChildren rest columnName textFields textFieldsWithKeyword
      match t with
      | none => pure ts
      | some q => pure (q :: ts)
end

/-- Does a generated leaf query target the given field path?  Checks the inner
key of term / range / terms / prefix / wildcard queries, looking through the
`bool.must_not` wrapper of a negated term query. -/
def targetsField : Json → String → Bool
  | .obj [("bool", .obj [("must_not", inner)])], p => targetsField inner p
  | .obj [(_, .obj [(k, _)])], p => k == p
  | _, _ => false


/-- C1: every constant comparison (`=`,`!=`,`<`,`<=`,`>`,`>=`), set-membership
and LIKE-pattern filter on a text column without a keyword subfield raises the
unsafe-pushdown error naming the field and suggesting a `.keyword` subfield or
the native `query` parameter; on a text column that has a keyword subfield the
same filters translate successfully and the generated query targets the
`<field>.keyword` path. -/
theorem text_field_pushdown_policy (field pattern : String) (v : DValue)
    (vals : List DValue) (ci : Bool) (op : CompOp) :
    translateConstantComparison field true false op v = .error (textFieldErrorMsg field) ∧
    translateInFilter field true false vals = .error (textFieldErrorMsg field) ∧
    translateLikePattern field pattern true false ci = .error (textFieldErrorMsg field) ∧
    (op ≠ .other →
      ∃ q, translateConstantComparison field true true op v = .ok (some q) ∧
        targetsField q (field ++ ".keyword") = true) ∧
    (∃ q, translateInFilter field true true vals = .ok (some q) ∧
      targetsField q (field ++ ".keyword") = true) ∧
    (∃ q, translateLikePattern field pattern true true ci = .ok q ∧
      targetsField q (field ++ ".keyword") = true) := by
  refine ⟨rfl, rfl, rfl, ?_, ?_, ?_⟩
  · intro hop
    cases op with
    | other => exact absurd rfl hop
    | eq => exact ⟨_, rfl, by simp [targetsField, getElasticsearchFieldName]⟩
    | neq => exact ⟨_, rfl, by simp [targetsField, getElasticsearchFieldName]⟩
    | gt => exact ⟨_, rfl, by simp [targetsField, getElasticsearchFieldName]⟩
    | gte => exact ⟨_, rfl, by simp [targetsField, getElasticsearchFieldName]⟩
    | lt => exact ⟨_, rfl, by simp [targetsField, getElasticsearchFieldName]⟩
    | lte => exact ⟨_, rfl, by simp [targetsField, getElasticsearchFieldName]⟩
  · exact ⟨_, rfl, by simp [targetsField, getElasticsearchFieldName]⟩
  · unfold translateLikePattern
    simp only [Bool.and_self, Bool.not_true, Bool.and_false, Bool.false_eq_true, if_false,
      Bool.and_true, if_true]
    split
    · exact ⟨_, rfl, by simp [targetsField, getElasticsearchFieldName]⟩
    · split
      · exact ⟨_, rfl, by simp [targetsField, getElasticsearchFieldName]⟩
      · exact ⟨_, rfl, by simp [targetsField, getElasticsearchFieldName]⟩

/-- Witness for `text_field_pushdown_policy` at concrete inputs. -/
theorem text_field_pushdown_policy_witness :
    translateConstantComparison "title" true false .eq (.str "x") =
      .error (textFieldErrorMsg "title") ∧
    (∃ q, translateConstantComparison "title" true true .eq (.str "x") = .ok (some q) ∧
      targetsField q ("title" ++ ".keyword") = true) := by
  have h := text_field_pushdown_policy "title" "x%" (.str "x") [.str "x"] false .eq
  exact ⟨h.1, h.2.2.2.1 (by decide)⟩


/-- The LIKE pattern `a\%b` (backslash-escaped percent). -/
def escapedPercentPattern : String := ⟨['a', backslashChar, '%', 'b']⟩

/-- C6 counterexample: the claim says pattern `a\%b` yields an exact-match
term query with value `a%b`; the code's no-wildcard check looks at the raw
pattern (which contains a `%`), so the pattern instead reaches the wildcard
branch and yields a wildcard query with value `a%b`. -/
theorem like_escaped_percent_not_term :
    translateLikePattern "f" escapedPercentPattern false false false =
      .ok (.obj [("wildcard", .obj [("f", .obj [("value", .str "a%b")])])]) ∧
    ¬ ∃ value : Json, translateLikePattern "f" escapedPercentPattern false false false =
      .ok (.obj [("term", .obj [("f", value)])]) := by
  refine ⟨rfl, ?_⟩
  rintro ⟨value, h⟩
  rw [show translateLikePattern "f" escapedPercentPattern false false false =
    .ok (.obj [("wildcard", .obj [("f", .obj [("value", .str "a%b")])])]) from rfl] at h
  simp at h

/-- C6 (amended): on a pushable field, pattern `abc%` yields a native prefix
query with value `abc`; pattern `a%b_c` yields a wildcard query with value
`a*b?c` (`%`→`*`, `_`→`?`, literal `*`/`?` backslash-escaped); pattern `a\%b`
(backslash-escaped percent) yields a wildcard query whose value is the literal
string `a%b` (no wildcard character); the ILIKE variants of each set a
`case_insensitive` flag on the query instead of lower-casing the pattern. -/
theorem like_pattern_translation (field : String) (ci : Bool) :
    translateLikePattern field "abc%" false false ci =
      .ok (.obj [("prefix", .obj [(field, .obj (("value", Json.str "abc") ::
        (if ci then [("case_insensitive", Json.bool true)] else [])))])]) ∧
    translateLikePattern field "a%b_c" false false ci =
      .ok (.obj [("wildcard", .obj [(field, .obj (("value", Json.str "a*b?c") ::
        (if ci then [("case_insensitive", Json.bool true)] else [])))])]) ∧
    translateLikePattern field escapedPercentPattern false false ci =
      .ok (.obj [("wildcard", .obj [(field, .obj (("value", Json.str "a%b") ::
        (if ci then [("case_insensitive", Json.bool true)] else [])))])]) := by
  cases ci <;> exact ⟨rfl, rfl, rfl⟩

/-- The zero/one/many shape shared by `TranslateConjunctionAnd`,
`TranslateConjunctionOr` and `TranslateFilters`: no translated children means
untranslatable, a single translated child is returned unwrapped, otherwise the
children are wrapped by the given clause builder. -/
def conjunctionShape (wrap : List Json → Json) : List Json → Option Json
  | [] => none
  | [q] => some q
  | qs => some (wrap qs)

/-- C7: translating an AND conjunction places every translated child in a
`bool.must` clause; an OR conjunction places them in a `bool.should` clause
with `minimum_should_match` 1; for either kind, zero translated children make
the conjunction untranslatable and a single translated child is returned
directly without a bool wrapper. -/
theorem conjunction_translation (children : List TFilter) (col : String)
    (tf tfk : List String) (ts : List Json)
    (h : translateChildren children col tf tfk = .ok ts) :
    translateFilter (.conjAnd children) col tf tfk =
      .ok (conjunctionShape
        (fun qs => .obj [("bool", .obj [("must", .arr qs)])]) ts) ∧
    translateFilter (.conjOr children) col tf tfk =
      .ok (conjunctionShape
        (fun qs => .obj [("bool",
          .obj [("should", .arr qs), ("minimum_should_match", .num 1)])]) ts) := by
  constructor <;>
    · rcases ts with _ | ⟨q, _ | ⟨q2, rest⟩⟩ <;>
      · rw [translateFilter, h]
        rfl

/-- Witness for `conjunction_translation`: two translatable children get
wrapped, a single translatable child is returned directly. -/
theorem conjunction_translation_witness :
    translateFilter (.conjAnd [.constantComparison .eq (.int 1), .isNotNullF]) "c" [] [] =
      .ok (some (.obj [("bool", .obj [("must", .arr
        [.obj [("term", .obj [("c", .num 1)])],
         .obj [("exists", .obj [("field", .str "c")])]])])])) ∧
    translateFilter (.conjOr [.constantComparison .eq (.int 1), .otherFilter]) "c" [] [] =
      .ok (some (.obj [("term", .obj [("c", .num 1)])])) := by
  have h2 := conjunction_translation [.constantComparison .eq (.int 1), .isNotNullF] "c" [] []
    [.obj [("term", .obj [("c", .num 1)])], .obj [("exists", .obj [("field", .str "c")])]] rfl
  have h1 := conjunction_translation [.constantComparison .eq (.int 1), .otherFilter] "c" [] []
    [.obj [("term", .obj [("c", .num 1)])]] rfl
  exact ⟨h2.1, h1.2⟩


/-! ### Retry client (`src/elasticsearch_client.cpp`) -/

/-- `RETRYABLE_STATUS_CODES` (`elasticsearch_client.cpp:15`). -/
def RETRYABLE_STATUS_CODES : List Int := [429, 500, 502, 503, 504]

/-- `ElasticsearchResponse` (`elasticsearch_client.hpp`): body omitted, it does
not influence the retry logic. -/
structure ESResponse where
  success : Bool
  statusCode : Int
  errorMessage : String
deriving Repr, DecidableEq

/-- The retry classification inside `PerformRequestWithRetry`
(`elasticsearch_client.cpp:312-320`): a positive status code is retryable iff
it is one of the designated transient codes; a status code of 0 (no HTTP
response, i.e. a network-level failure) is always retryable. -/
def shouldRetryResponse (r : ESResponse) : Bool :=
  if r.statusCode > 0 then RETRYABLE_STATUS_CODES.contains r.statusCode else true

/-- The retry-relevant fields of `ElasticsearchConfig`.  `retry_interval` is an
int32 converted to double and `retry_backoff_factor` a double; real-valued
backoff arithmetic is modelled over `ℚ`. -/
structure RetryConfig where
  maxRetries : Nat
  retryInterval : ℚ
  retryBackoffFactor : ℚ

/-- Result of a full `PerformRequestWithRetry` run: final response, the value
of `retry_count` at exit, and every back-off sleep performed, in order. -/
structure RetryResult where
  response : ESResponse
  retryCount : Nat
  sleeps : List ℚ
deriving Repr

/-- The `while (retry_count <= config_.max_retries)` loop of
`PerformRequestWithRetry` (`elasticsearch_client.cpp:303-330`).  `perform i`
is the response `PerformRequest` yields on attempt `i`; `remaining` is
`max_retries - retry_count`, so `remaining = 0` is the
`retry_count >= config_.max_retries` break condition. -/
def retryLoop (perform : Nat → ESResponse) (factor : ℚ) :
    Nat → Nat → ℚ → List ℚ → RetryResult
  | remaining, retryCount, backoffMs, sleeps =>
    let resp := perform retryCount
    if resp.success then ⟨resp, retryCount, sleeps⟩
    else if !shouldRetryResponse resp then ⟨resp, retryCount, sleeps⟩
    else
      match remaining with
      | 0 => ⟨resp, retryCount, sleeps⟩
      | r + 1 =>
          retryLoop perform factor r (retryCount + 1) (backoffMs * factor) (sleeps ++ [backoffMs])

/-- `PerformRequestWithRetry` (`elasticsearch_client.cpp:297`): run the retry
loop starting from `retry_count = 0` and `backoff_ms = retry_interval`, then
annotate the error message with the retry count when retries were used and the
final response is a failure. -/
def performRequestWithRetry (perform : Nat → ESResponse) (cfg : RetryConfig) : RetryResult :=
  let raw := retryLoop perform cfg.retryBackoffFactor cfg.maxRetries 0 cfg.retryInterval []
  if raw.retryCount > 0 && !raw.response.success then
    { raw with response := { raw.response with
        errorMessage := raw.response.errorMessage ++ " (after " ++
          toString raw.retryCount ++ " retries)" } }
  else raw


/-- With no retry budget left, the loop returns the current attempt as-is. -/
theorem retryLoop_zero (perform : Nat → ESResponse) (f : ℚ) (c : Nat) (b : ℚ) (s : List ℚ) :
    retryLoop perform f 0 c b s = ⟨perform c, c, s⟩ := by
  rw [retryLoop]
  split
  · rfl
  · split <;> rfl

/-- One unfolding step of the retry loop when retry budget remains. -/
theorem retryLoop_succ (perform : Nat → ESResponse) (f : ℚ) (r c : Nat) (b : ℚ) (s : List ℚ) :
    retryLoop perform f (r + 1) c b s =
      if (perform c).success then ⟨perform c, c, s⟩
      else if !shouldRetryResponse (perform c) then ⟨perform c, c, s⟩
      else retryLoop perform f r (c + 1) (b * f) (s ++ [b]) := by
  rw [retryLoop]

/-- Invariant of the retry loop: started at attempt `c` with back-off
`w0 * f ^ c` and the sleeps `w0 * f ^ 0 … w0 * f ^ (c-1)` already recorded, it
ends at some attempt `n` between `c` and `c + remaining`, returns exactly the
response of attempt `n`, and has slept `w0 * f ^ i` before each retry
`i + 1 ≤ n`. -/
theorem retryLoop_spec (perform : Nat → ESResponse) (f w0 : ℚ) :
    ∀ (remaining c : Nat), ∃ n,
      retryLoop perform f remaining c (w0 * f ^ c)
          ((List.range c).map (fun i => w0 * f ^ i)) =
        ⟨perform n, n, (List.range n).map (fun i => w0 * f ^ i)⟩ ∧
      c ≤ n ∧ n ≤ c + remaining := by
  intro remaining
  induction remaining with
  | zero =>
      intro c
      exact ⟨c, retryLoop_zero perform f c _ _, le_refl c, by omega⟩
  | succ r ih =>
      intro c
      rw [retryLoop_succ]
      by_cases hs : (perform c).success = true
      · rw [if_pos hs]
        exact ⟨c, rfl, le_refl c, by omega⟩
      · rw [if_neg hs]
        by_cases hr : (!shouldRetryResponse (perform c)) = true
        · rw [if_pos hr]
          exact ⟨c, rfl, le_refl c, by omega⟩
        · rw [if_neg hr]
          have harith : w0 * f ^ c * f = w0 * f ^ (c + 1) := by ring
          have hlist : (List.range c).map (fun i => w0 * f ^ i) ++ [w0 * f ^ c] =
              (List.range (c + 1)).map (fun i => w0 * f ^ i) := by
            rw [List.range_succ, List.map_append]
            rfl
          rw [harith, hlist]
          obtain ⟨n, heq, hc, hb⟩ := ih (c + 1)
          exact ⟨n, heq, by omega, by omega⟩


/-- Bridge between `List.contains` (used to model `std::unordered_set::count`)
and list membership. -/
theorem containsMemInt (a : Int) (l : List Int) : l.contains a = true ↔ a ∈ l :=
  List.elem_iff

/-- C2: (a) a failed attempt is retried exactly when its status code is one of
{429, 500, 502, 503, 504} or there is no HTTP status (code 0); (b) any other
non-success status returns immediately without retrying; (c) before retry
`i + 1` the client sleeps `retry_interval * backoff_factor ^ i`, and at most
`max_retries` retries are performed; (d) when the final result is a failure
after at least one retry, its error message is annotated with the number of
retries used; (e) a retryable first failure with retry budget is actually
retried. -/
theorem retry_policy (perform : Nat → ESResponse) (cfg : RetryConfig) :
    (∀ r : ESResponse, 0 ≤ r.statusCode →
      (shouldRetryResponse r = true ↔
        r.statusCode ∈ RETRYABLE_STATUS_CODES ∨ r.statusCode = 0)) ∧
    ((perform 0).success = false → 0 < (perform 0).statusCode →
      (perform 0).statusCode ∉ RETRYABLE_STATUS_CODES →
      performRequestWithRetry perform cfg = ⟨perform 0, 0, []⟩) ∧
    (∃ n, n ≤ cfg.maxRetries ∧
      (performRequestWithRetry perform cfg).retryCount = n ∧
      (performRequestWithRetry perform cfg).sleeps =
        (List.range n).map (fun i => cfg.retryInterval * cfg.retryBackoffFactor ^ i)) ∧
    (∀ raw : RetryResult,
      raw = retryLoop perform cfg.retryBackoffFactor cfg.maxRetries 0 cfg.retryInterval [] →
      0 < raw.retryCount → raw.response.success = false →
      (performRequestWithRetry perform cfg).response.errorMessage =
        raw.response.errorMessage ++ " (after " ++ toString raw.retryCount ++ " retries)") ∧
    ((perform 0).success = false → shouldRetryResponse (perform 0) = true →
      0 < cfg.maxRetries → 1 ≤ (performRequestWithRetry perform cfg).retryCount) := by
  have hspec := retryLoop_spec perform cfg.retryBackoffFactor cfg.retryInterval
  refine ⟨?_, ?_, ?_, ?_, ?_⟩
  · intro r h0
    unfold shouldRetryResponse
    by_cases hp : 0 < r.statusCode
    · rw [if_pos hp, containsMemInt]
      refine ⟨Or.inl, ?_⟩
      rintro (h | h)
      · exact h
      · omega
    · rw [if_neg hp]
      have : r.statusCode = 0 := by omega
      simp [this]
  · intro hfail hpos hmem
    have hsr : shouldRetryResponse (perform 0) = false := by
      unfold shouldRetryResponse
      rw [if_pos hpos, ← Bool.not_eq_true, containsMemInt]
      exact hmem
    have hstop : retryLoop perform cfg.retryBackoffFactor cfg.maxRetries 0
        cfg.retryInterval [] = ⟨perform 0, 0, []⟩ := by
      cases cfg.maxRetries with
      | zero => exact retryLoop_zero perform cfg.retryBackoffFactor 0 _ _
      | succ r =>
          rw [retryLoop_succ, if_neg (by simp [hfail]), if_pos (by simp [hsr])]
    simp [performRequestWithRetry, hstop]
  · obtain ⟨n, heq, -, hb⟩ := hspec cfg.maxRetries 0
    simp only [pow_zero, mul_one, List.range_zero, List.map_nil] at heq
    refine ⟨n, by omega, ?_, ?_⟩ <;>
      · unfold performRequestWithRetry
        rw [heq]
        dsimp only
        split <;> rfl
  · intro raw hraw h1 h2
    unfold performRequestWithRetry
    rw [← hraw]
    rw [if_pos (by simp [h1, h2])]
  · intro hfail hretry hmax
    cases hm : cfg.maxRetries with
    | zero => omega
    | succ r =>
        have hrec : retryLoop perform cfg.retryBackoffFactor (r + 1) 0
            cfg.retryInterval [] =
            retryLoop perform cfg.retryBackoffFactor r 1
              (cfg.retryInterval * cfg.retryBackoffFactor) [cfg.retryInterval] := by
          rw [retryLoop_succ, if_neg (by simp [hfail]), if_neg (by simp [hretry])]
          rfl
        obtain ⟨n, heq, hc, -⟩ := hspec r 1
        have h1 : cfg.retryInterval * cfg.retryBackoffFactor ^ (1 : Nat) =
            cfg.retryInterval * cfg.retryBackoffFactor := by ring
        have h2 : (List.range 1).map (fun i => cfg.retryInterval * cfg.retryBackoffFactor ^ i) =
            [cfg.retryInterval] := by simp [List.range_succ]
        rw [h1, h2] at heq
        unfold performRequestWithRetry
        rw [hm, hrec, heq]
        dsimp only
        split <;> simpa using hc

/-- Witness for `retry_policy`: three 503 responses followed by a 200 on a
3-retry configuration; the 503 is classified retryable and at least one retry
happens. -/
theorem retry_policy_witness :
    (shouldRetryResponse ⟨false, 503, "m"⟩ = true ↔
      (503 : Int) ∈ RETRYABLE_STATUS_CODES ∨ (503 : Int) = 0) ∧
    1 ≤ (performRequestWithRetry
      (fun i => if i < 3 then ⟨false, 503, "m"⟩ else ⟨true, 200, ""⟩)
      ⟨3, 100, 2⟩).retryCount := by
  have h := retry_policy (fun i => if i < 3 then ⟨false, 503, "m"⟩ else ⟨true, 200, ""⟩)
    ⟨3, 100, 2⟩
  exact ⟨h.1 ⟨false, 503, "m"⟩ (by norm_num), h.2.2.2.2 (by decide) (by decide) (by norm_num)⟩


/-! ### Scroll cleanup (`ClearScroll` and the scan global-state destructor) -/

/-- An HTTP request issued by the client: method, path and body. -/
structure ESRequest where
  method : String
  path : String
  body : String
deriving Repr, DecidableEq

/-- The request built by `ElasticsearchClient::ClearScroll`
(`elasticsearch_client.cpp:356-360`). -/
def clearScrollRequest (scrollId : String) : ESRequest :=
  ⟨"DELETE", "/_search/scroll",
    "\x7b\"scroll_id\":\"" ++ scrollId ++ "\"\x7d"⟩

/-- Result of one client entry point against a response oracle: the response
handed back and the number of `PerformRequest` round trips made. -/
structure CallOutcome where
  response : ESResponse
  attempts : Nat
deriving Repr

/-- `PerformRequest` (`elasticsearch_client.cpp:192`) performs exactly one
round trip and never throws: CURL failures and exceptions are converted into a
failure response. -/
def performRequestOnce (perform : Nat → ESResponse) : CallOutcome :=
  ⟨perform 0, 1⟩

/-- `ElasticsearchClient::ClearScroll` (`elasticsearch_client.cpp:356`): a
single `PerformRequest`, deliberately not `PerformRequestWithRetry` — scroll
cleanup is not retried because it is not critical if it fails. -/
def clearScroll (perform : Nat → ESResponse) : CallOutcome :=
  performRequestOnce perform

/-- `~ElasticsearchQueryGlobalState` (`elasticsearch_query.cpp:108-117`): free
the parsed documents, then — iff the client exists and a scroll token was
obtained — issue the scroll cleanup.  The `CallOutcome` of `ClearScroll` is
discarded and the destructor has no failure path; its observable behavior is
the list of cleanup requests it issues. -/
def globalStateTeardown (clientPresent : Bool) (scrollId : String)
    (perform : Nat → ESResponse) : List ESRequest :=
  if clientPresent && scrollId != "" then
    let _o := clearScroll perform
    -- o.response is ignored: a failing close cannot fail the scan
    [clearScrollRequest scrollId]
  else []

/-- C8: cursor close is fire-and-forget — `ClearScroll` makes exactly one
request (no retries, whatever the response); the teardown's behavior is
independent of the close response, so a failing close never raises an error or
fails the scan; and teardown issues the close exactly when a scroll token was
obtained. -/
theorem cursor_close_fire_and_forget (scrollId : String)
    (perform pOther : Nat → ESResponse) :
    (clearScroll perform).attempts = 1 ∧
    globalStateTeardown true scrollId perform = globalStateTeardown true scrollId pOther ∧
    (scrollId ≠ "" → globalStateTeardown true scrollId perform = [clearScrollRequest scrollId]) ∧
    globalStateTeardown true "" perform = [] := by
  refine ⟨rfl, rfl, ?_, rfl⟩
  intro h
  unfold globalStateTeardown
  rw [if_pos (by simp [h])]

/-- Witness for `cursor_close_fire_and_forget`: an obtained token is closed
exactly once even when the close response is a failure. -/
theorem cursor_close_fire_and_forget_witness :
    (clearScroll (fun _ => ⟨false, 503, "m"⟩)).attempts = 1 ∧
    globalStateTeardown true "tok" (fun _ => ⟨false, 503, "m"⟩) =
      [clearScrollRequest "tok"] := by
  have h := cursor_close_fire_and_forget "tok" (fun _ => ⟨false, 503, "m"⟩)
    (fun _ => ⟨true, 200, ""⟩)
  exact ⟨h.1, h.2.2.1 (by decide)⟩


/-! ### Relational types (`duckdb::LogicalType` as produced by the mapping
parser in `src/elasticsearch_common.cpp`) -/

/-- The `LogicalType`s produced by `BuildDuckDBTypeFromMapping`
(`elasticsearch_common.cpp:566`), plus `json` for the `_unmapped_` column. -/
inductive LType where
  | varchar | bigint | integer | smallint | tinyint | double | float
  | boolean | timestamp | json
  | list (child : LType)
  | struct (children : List (String × LType))
deriving Repr

/-- `LogicalType::id()`: the type identifier, ignoring struct/list payloads. -/
def LType.tid : LType → Nat
  | .varchar => 0
  | .bigint => 1
  | .integer => 2
  | .smallint => 3
  | .tinyint => 4
  | .double => 5
  | .float => 6
  | .boolean => 7
  | .timestamp => 8
  | .json => 9
  | .list _ => 10
  | .struct _ => 11

/-- Is this a STRUCT type? -/
def LType.isStructT : LType → Bool
  | .struct _ => true
  | _ => false

/-- Is this a LIST type? -/
def LType.isListT : LType → Bool
  | .list _ => true
  | _ => false

/-! ### Output schema shape (`ElasticsearchQueryBind`, C9) -/

/-- The schema-emission tail of `ElasticsearchQueryBind`
(`elasticsearch_query.cpp:421-441`): when mapping resolution produced no
columns, a single opaque `_source` JSON-string (VARCHAR) column is
substituted; the emitted schema is `_id` (VARCHAR) first, one column per
resolved field, and the residual `_unmapped_` (JSON) column last. -/
def buildOutputSchema (allColumnNames : List String) (allColumnTypes : List LType) :
    List String × List LType :=
  let p :=
    if allColumnNames.isEmpty then (["_source"], [LType.varchar])
    else (allColumnNames, allColumnTypes)
  ("_id" :: p.1 ++ ["_unmapped_"], .varchar :: p.2 ++ [.json])

/-- C9: every scan's output schema is the triple-zone layout — `_id` first,
the resolved field columns in resolution order, `_unmapped_` last — and a
resolution with zero fields yields a single opaque JSON-string `_source`
column between the identifier and residual columns. -/
theorem output_schema_triple_zone (names : List String) (types : List LType) :
    (names ≠ [] →
      buildOutputSchema names types =
        ("_id" :: names ++ ["_unmapped_"], .varchar :: types ++ [.json])) ∧
    buildOutputSchema [] types = (["_id", "_source", "_unmapped_"],
      [.varchar, .varchar, .json]) ∧
    (buildOutputSchema names types).1.head? = some "_id" ∧
    (buildOutputSchema names types).1.getLast? = some "_unmapped_" := by
  refine ⟨?_, rfl, ?_, ?_⟩
  · intro h
    unfold buildOutputSchema
    rw [if_neg (by simpa using h)]
  · cases names <;> rfl
  · cases names with
    | nil => rfl
    | cons a rest =>
        show (("_id" :: (a :: rest)) ++ ["_unmapped_"]).getLast? = some "_unmapped_"
        rw [List.getLast?_concat]

/-- Witness for `output_schema_triple_zone` on a one-column schema. -/
theorem output_schema_triple_zone_witness :
    buildOutputSchema ["title"] [.varchar] =
      ("_id" :: ["title"] ++ ["_unmapped_"], .varchar :: [LType.varchar] ++ [.json]) :=
  (output_schema_triple_zone ["title"] [.varchar]).1 (by decide)

/-! ### Bind cache (`src/elasticsearch_cache.cpp`, C10) -/

/-- The connection parameters that contribute to a bind-cache key
(`ElasticsearchConfig`; fields that do not appear in the key are omitted). -/
structure ESConfig where
  host : String
  port : Int
  username : String
  password : String
  useSsl : Bool
  verifySsl : Bool

/-- The null-byte separator of `BuildBindCacheKey`. -/
def nullSep : String := String.mk [Char.ofNat 0]

/-- `BuildBindCacheKey` (`elasticsearch_cache.cpp:33-55`). -/
def buildBindCacheKey (config : ESConfig) (index baseQuery : String) (sampleSize : Int) :
    String :=
  config.host ++ nullSep ++ toString config.port ++ nullSep ++ index ++ nullSep ++
    baseQuery ++ nullSep ++ config.username ++ nullSep ++ config.password ++ nullSep ++
    (if config.useSsl then "1" else "0") ++ nullSep ++
    (if config.verifySsl then "1" else "0") ++ nullSep ++ toString sampleSize

/-- A cached bind entry, abstracted to the resolved column names and types. -/
abbrev BindEntry := List String × List LType

/-- The bind cache contents (`std::unordered_map<string, entry>` inside
`ElasticsearchBindCache`), as an association list. -/
abbrev BindCache := List (String × BindEntry)

/-- `ElasticsearchBindCache::Get` (`elasticsearch_cache.cpp:12`). -/
def cacheGet (cache : BindCache) (key : String) : Option BindEntry :=
  (cache.find? (fun p => p.1 == key)).map (fun p => p.2)

/-- `ElasticsearchBindCache::Put` (`elasticsearch_cache.cpp:21`):
`cache_[key] = entry` replaces an existing entry or inserts a new one. -/
def cachePut (cache : BindCache) (key : String) (entry : BindEntry) : BindCache :=
  if (cache.find? (fun p => p.1 == key)).isSome then
    cache.map (fun p => if p.1 == key then (key, entry) else p)
  else cache ++ [(key, entry)]

/-- `ElasticsearchBindCache::Clear` (`elasticsearch_cache.cpp:26`): a full
wipe of the cache map. -/
def cacheClear (_cache : BindCache) : BindCache := []

/-- Modelled from the spec: `ClearCacheOnSetting` — the set-callback attached
to the `elasticsearch_sample_size` option (declared in
`elasticsearch_cache.hpp:61` and registered in
`elasticsearch_extension.cpp:60-62`) — has no definition under `src/`.
Spec §6: "changing the sample-size setting must trigger a Bind Cache clear
since it changes resolved schemas"; accordingly it is modelled as invoking
`ElasticsearchBindCache::Clear` on the cache. -/
def clearCacheOnSetting (cache : BindCache) : BindCache := cacheClear cache

/-- The caching wrapper of `ResolveElasticsearchSchema`
(`elasticsearch_common.cpp:1676-1695` and `:1779-1791`): build the key, return
a copy of a cached entry on a hit; on a miss compute the schema (abstracted by
`compute`), store it, and return it.  The Boolean records whether a cached
entry was reused. -/
def resolveWithCache (cache : BindCache) (config : ESConfig) (index baseQuery : String)
    (sampleSize : Int) (compute : BindEntry) : BindEntry × Bool × BindCache :=
  let key := buildBindCacheKey config index baseQuery sampleSize
  match cacheGet cache key with
  | some entry => (entry, true, cache)
  | none => (compute, false, cachePut cache key compute)

/-- C10: changing the sample-size setting clears the entire bind cache, so a
resolve performed after the change can never reuse a schema resolved under the
previous sample size: every lookup misses and the schema is recomputed. -/
theorem sample_size_change_clears_cache (cache : BindCache) (config : ESConfig)
    (index baseQuery : String) (sampleSize : Int) (compute : BindEntry) :
    clearCacheOnSetting cache = [] ∧
    cacheGet (clearCacheOnSetting cache)
      (buildBindCacheKey config index baseQuery sampleSize) = none ∧
    (resolveWithCache (clearCacheOnSetting cache) config index baseQuery sampleSize
      compute).2.1 = false ∧
    (resolveWithCache (clearCacheOnSetting cache) config index baseQuery sampleSize
      compute).1 = compute :=
  ⟨rfl, rfl, rfl, rfl⟩


/-! ### Cross-collection mapping merge (`src/elasticsearch_common.cpp`, C4) -/

/-- Field lookup in a struct child list (`std::map::find` on the maps that
`AreTypesCompatible`/`MergeStructTypes` build from `StructType::GetChildTypes`;
child names are unique in a mapping-derived struct). -/
def lookupFieldT (k : String) (fields : List (String × LType)) : Option LType :=
  (fields.find? (fun p => p.1 == k)).map (fun p => p.2)

mutual
/-- `LogicalType::operator==`: deep structural equality. -/
def ltEq (t1 t2 : LType) : Bool :=
  match t1, t2 with
  | .list a, .list b => ltEq a b
  | .struct a, .struct b => ltEqFields a b
  | a, b => a.tid == b.tid

/-- Deep equality of struct child lists (names, order and types). -/
def ltEqFields (l1 l2 : List (String × LType)) : Bool :=
  match l1, l2 with
  | [], [] => true
  | (k1, v1) :: r1, (k2, v2) :: r2 => k1 == k2 && ltEq v1 v2 && ltEqFields r1 r2
  | _, _ => false
end

mutual
/-- `AreTypesCompatible` (`elasticsearch_common.cpp:771-814`): identical types
are compatible; differing type ids are not; structs are compatible when their
overlapping fields are recursively compatible; lists when their child types
are; any other same-id pair is not. -/
def areTypesCompatible (t1 t2 : LType) : Bool :=
  if ltEq t1 t2 then true
  else if t1.tid != t2.tid then false
  else
    match t1, t2 with
    | .struct c1, .struct c2 => structOverlapCompatible c1 c2
    | .list a, .list b => areTypesCompatible a b
    | _, _ => false
termination_by sizeOf t1

/-- The overlap loop of `AreTypesCompatible` for STRUCT types
(`elasticsearch_common.cpp:796-804`). -/
def structOverlapCompatible (c1 c2 : List (String × LType)) : Bool :=
  match c1 with
  | [] => true
  | (k, v) :: rest =>
      (match lookupFieldT k c2 with
       | some v2 => areTypesCompatible v v2
       | none => true) && structOverlapCompatible rest c2
termination_by sizeOf c1
end

/-- In-place type replacement for one field (the `merged[child.first] = …`
assignment of `MergeStructTypes`; the position in the ordered field list is
kept). -/
def updateFieldT (k : String) (v : LType) : List (String × LType) → List (String × LType)
  | [] => []
  | (k2, v2) :: rest =>
      if k2 == k then (k2, v) :: rest else (k2, v2) :: updateFieldT k v rest

mutual
/-- `MergeStructTypes` (`elasticsearch_common.cpp:816-854`): union of the two
field sets preserving first-seen order; a field present in both keeps the
first type unless both are structs, which are merged recursively; non-struct
inputs return the first type. -/
def mergeStructTypes (t1 t2 : LType) : LType :=
  match t1, t2 with
  | .struct c1, .struct c2 => .struct (mergeFieldLists c1 c2)
  | _, _ => t1
termination_by sizeOf t2

/-- The `children2` loop of `MergeStructTypes`, folding the second struct's
fields into the accumulated ordered field list. -/
def mergeFieldLists (acc : List (String × LType)) (l : List (String × LType)) :
    List (String × LType) :=
  match l with
  | [] => acc
  | (k, v) :: rest =>
      match lookupFieldT k acc with
      | some existing =>
          if existing.isStructT && v.isStructT then
            mergeFieldLists (updateFieldT k (mergeStructTypes existing v) acc) rest
          else mergeFieldLists acc rest
      | none => mergeFieldLists (acc ++ [(k, v)]) rest
termination_by sizeOf l
end

mutual
/-- `LogicalType::ToString`, to the extent the merge error message needs it. -/
def ltypeToString (t : LType) : String :=
  match t with
  | .varchar => "VARCHAR"
  | .bigint => "BIGINT"
  | .integer => "INTEGER"
  | .smallint => "SMALLINT"
  | .tinyint => "TINYINT"
  | .double => "DOUBLE"
  | .float => "FLOAT"
  | .boolean => "BOOLEAN"
  | .timestamp => "TIMESTAMP"
  | .json => "JSON"
  | .list c => ltypeToString c ++ "[]"
  | .struct cs => "STRUCT(" ++ structFieldsToString cs ++ ")"
termination_by sizeOf t

/-- Comma-separated struct field rendering. -/
def structFieldsToString (fields : List (String × LType)) : String :=
  match fields with
  | [] => ""
  | [(k, v)] => k ++ " " ++ ltypeToString v
  | (k, v) :: rest => k ++ " " ++ ltypeToString v ++ ", " ++ structFieldsToString rest
termination_by sizeOf fields
end

/-- The `InvalidInputException` of `MergeMappingsFromIndices`
(`elasticsearch_common.cpp:906-909`): names the field path, both index names
and both conflicting types. -/
def incompatibleTypesMsg (fieldPath firstIndex : String) (t1 : LType)
    (indexName : String) (t2 : LType) : String :=
  "Incompatible field types for " ++ squote ++ fieldPath ++ squote ++ ": index " ++
    squote ++ firstIndex ++ squote ++ " has type " ++ ltypeToString t1 ++
    ", but index " ++ squote ++ indexName ++ squote ++ " has type " ++ ltypeToString t2

/-- `MergedFieldInfo` (`elasticsearch_common.cpp`). -/
structure MergedFieldInfo where
  type : LType
  esType : String
  firstIndex : String
deriving Repr

/-- One output column of `MergeMappingsFromIndices`. -/
structure MergedColumn where
  name : String
  type : LType
  path : String
  esType : String
deriving Repr

/-- Replace the info stored for a path, keeping its position
(`it->second.type = MergeStructTypes(...)`). -/
def updateMerged (path : String) (info : MergedFieldInfo) :
    List (String × MergedFieldInfo) → List (String × MergedFieldInfo)
  | [] => []
  | (k, i) :: rest =>
      if k == path then (k, info) :: rest else (k, i) :: updateMerged path info rest

/-- The per-index field loop of `MergeMappingsFromIndices`
(`elasticsearch_common.cpp:891-917`): each field is either newly recorded with
its declaring index, or checked for compatibility against the recorded type —
raising the named conflict error on failure — and struct-merged on success. -/
def mergeIndexFields (indexName : String) :
    List (String × LType × String) → List (String × MergedFieldInfo) →
    Except String (List (String × MergedFieldInfo))
  | [], merged => .ok merged
  | (path, ty, esTy) :: rest, merged =>
      match (merged.find? (fun p => p.1 == path)).map (fun p => p.2) with
      | none =>
          mergeIndexFields indexName rest (merged ++ [(path, ⟨ty, esTy, indexName⟩)])
      | some info =>
          if !areTypesCompatible info.type ty then
            .error (incompatibleTypesMsg path info.firstIndex info.type indexName ty)
          else if info.type.isStructT && ty.isStructT then
            mergeIndexFields indexName rest
              (updateMerged path { info with type := mergeStructTypes info.type ty } merged)
          else mergeIndexFields indexName rest merged

/-- The index loop of `MergeMappingsFromIndices`
(`elasticsearch_common.cpp:868-918`). -/
def mergeAllIndices :
    List (String × List (String × LType × String)) → List (String × MergedFieldInfo) →
    Except String (List (String × MergedFieldInfo))
  | [], merged => .ok merged
  | (indexName, fields) :: rest, merged => do
      let merged2 ← mergeIndexFields indexName fields merged
      mergeAllIndices rest merged2

/-- The column name extracted from a field path: the component after the last
dot (`elasticsearch_common.cpp:924-929`). -/
def lastPathComponent (path : String) : String :=
  (path.splitOn ".").getLastD path

/-- `MergeMappingsFromIndices` (`elasticsearch_common.cpp:856-936`), taking
each index's parsed field list — `(field path, relational type, external
type)` triples in mapping order, as produced by `ParseMapping` — and emitting
the merged columns in first-seen path order. -/
def mergeMappingsFromIndices (indices : List (String × List (String × LType × String))) :
    Except String (List MergedColumn) := do
  let merged ← mergeAllIndices indices []
  pure (merged.map (fun p =>
    { name := lastPathComponent p.1, type := p.2.type, path := p.1, esType := p.2.esType }))


/-- C4: merging two collections that declare the same path as `struct{a,b}`
and `struct{b,c}` yields one column typed `struct{a,b,c}` (field-set union,
first-seen order); declaring the path as a struct in one collection and a
primitive in the other fails with an error naming the path, both collection
identifiers and both conflicting types. -/
theorem cross_collection_struct_merge (i1 i2 path a b c : String)
    (hab : a ≠ b) (hbc : b ≠ c) (hac : a ≠ c) :
    (mergeMappingsFromIndices
      [(i1, [(path, .struct [(a, .varchar), (b, .bigint)], "object")]),
       (i2, [(path, .struct [(b, .bigint), (c, .boolean)], "object")])] =
      .ok [{ name := lastPathComponent path,
             type := .struct [(a, .varchar), (b, .bigint), (c, .boolean)],
             path := path, esType := "object" }]) ∧
    (mergeMappingsFromIndices
      [(i1, [(path, .struct [(a, .varchar), (b, .bigint)], "object")]),
       (i2, [(path, .bigint, "long")])] =
      .error (incompatibleTypesMsg path i1 (.struct [(a, .varchar), (b, .bigint)])
        i2 .bigint)) := by
  have h1 : (a == b) = false := by simp [hab]
  have h2 : (b == a) = false := by simp [Ne.symm hab]
  have h3 : (b == c) = false := by simp [hbc]
  have h4 : (c == b) = false := by simp [Ne.symm hbc]
  have h5 : (a == c) = false := by simp [hac]
  have h6 : (c == a) = false := by simp [Ne.symm hac]
  constructor <;>
    simp [mergeMappingsFromIndices, mergeAllIndices, mergeIndexFields, areTypesCompatible,
      structOverlapCompatible, ltEq, ltEqFields, lookupFieldT, mergeStructTypes,
      mergeFieldLists, updateFieldT, updateMerged, LType.tid, LType.isStructT,
      Bind.bind, Except.bind, Pure.pure, Except.pure,
      h1, h2, h3, h4, h5, h6]

/-- Witness for `cross_collection_struct_merge` at concrete names. -/
theorem cross_collection_struct_merge_witness :
    (mergeMappingsFromIndices
      [("i1", [("p", .struct [("a", .varchar), ("b", .bigint)], "object")]),
       ("i2", [("p", .struct [("b", .bigint), ("c", .boolean)], "object")])] =
      .ok [{ name := lastPathComponent "p",
             type := .struct [("a", .varchar), ("b", .bigint), ("c", .boolean)],
             path := "p", esType := "object" }]) ∧
    (mergeMappingsFromIndices
      [("i1", [("p", .struct [("a", .varchar), ("b", .bigint)], "object")]),
       ("i2", [("p", .bigint, "long")])] =
      .error (incompatibleTypesMsg "p" "i1" (.struct [("a", .varchar), ("b", .bigint)])
        "i2" .bigint)) :=
  cross_collection_struct_merge "i1" "i2" "p" "a" "b" "c"
    (by decide) (by decide) (by decide)


/-! ### LIMIT/OFFSET pushdown and the scan loop (C3) -/

/-- The `BoundLimitNode` shapes inspected by the optimizer
(`duckdb::LimitNodeType`): unset, a constant value, or a non-constant node
(expression or percentage). -/
inductive LimitNode where
  | unset
  | constVal (v : Nat)
  | exprVal
deriving Repr, DecidableEq

/-- The decision core of `OptimizeLimitPushdownRecursive`
(`elasticsearch_optimizer.cpp:29-61`): constant limit/offset values are
extracted (defaults `-1` / `0`); a non-constant limit or offset prevents
pushdown; pushdown happens only if a positive limit or offset was found.
Returns the `(limit, offset)` pair stored through
`SetElasticsearchLimitOffset`, or `none` when the LIMIT operator stays in the
plan and nothing is pushed down. -/
def tryLimitPushdown (limitVal offsetVal : LimitNode) : Option (Int × Int) :=
  let limit : Int := match limitVal with | .constVal v => (v : Int) | _ => -1
  let offset : Int := match offsetVal with | .constVal v => (v : Int) | _ => 0
  let canPushdown :=
    (match limitVal with | .exprVal => false | _ => true) &&
    (match offsetVal with | .exprVal => false | _ => true)
  if canPushdown && (limit > 0 || offset > 0) then some (limit, offset) else none

/-- The scan-relevant fields of `ElasticsearchQueryGlobalState`
(`elasticsearch_query.cpp:75-122`).  Documents are identified by their store
values (`Nat`); `scrollPos` is how many documents the server-side cursor has
already served; `pageRequests` counts the search/scroll page requests issued. -/
structure ScanState where
  hits : List Nat
  currentHitIdx : Nat
  scrollPos : Nat
  scrollId : String
  finished : Bool
  currentRow : Nat
  maxRows : Int
  rowsToSkip : Int
  rowsSkipped : Int
  pageRequests : Nat
deriving Repr

/-- One page served by the store's scroll cursor: the next `batchSize`
documents after position `pos`, in store order. -/
def scrollPage (docs : List Nat) (pos batchSize : Nat) : List Nat :=
  (docs.drop pos).take batchSize

/-- `STANDARD_VECTOR_SIZE`. -/
def STANDARD_VECTOR_SIZE : Nat := 2048

/-- The scan-relevant tail of `ElasticsearchQueryInitGlobal`
(`elasticsearch_query.cpp:515-581`): `query_limit = limit + offset` when both
are positive (else the limit); a batch size of `query_limit` when
`0 < query_limit ≤ 5000`, else the default 1000; the first page is requested
eagerly and an empty first page finishes the scan.  Returns the initial state
and the chosen batch size. -/
def elasticsearchQueryInitGlobal (docs : List Nat) (limit offset : Int) :
    ScanState × Nat :=
  let queryLimit : Int := if limit > 0 && offset > 0 then limit + offset else limit
  let batchSize : Nat :=
    if 0 < queryLimit && queryLimit ≤ 5000 then queryLimit.toNat else 1000
  let firstPage := scrollPage docs 0 batchSize
  ({ hits := firstPage
     currentHitIdx := 0
     scrollPos := firstPage.length
     scrollId := "scroll-token"
     finished := firstPage.isEmpty
     currentRow := 0
     maxRows := limit
     rowsToSkip := offset
     rowsSkipped := 0
     pageRequests := 1 }, batchSize)

/-- The row loop of `ElasticsearchQueryScan`
(`elasticsearch_query.cpp:612-719`), fuel-bounded: each iteration either
consumes one hit (skipping it for an unmet offset or emitting it) or fetches
the next page through the cursor, exactly as the `while` loop does. -/
def scanLoop (docs : List Nat) (batchSize : Nat) :
    Nat → ScanState → Nat → Nat → List Nat → List Nat × ScanState
  | 0, s, _, _, out => (out, s)
  | fuel + 1, s, outIdx, maxOutput, out =>
    if outIdx < maxOutput && !s.finished then
      if s.currentHitIdx ≥ s.hits.length then
        if s.maxRows > 0 && (s.currentRow : Int) ≥ s.maxRows then
          (out, { s with finished := true })
        else if s.scrollId == "" then
          (out, { s with finished := true })
        else
          let page := scrollPage docs s.scrollPos batchSize
          let s2 := { s with hits := page, scrollPos := s.scrollPos + page.length,
                             currentHitIdx := 0, pageRequests := s.pageRequests + 1 }
          if page.isEmpty then (out, { s2 with finished := true })
          else scanLoop docs batchSize fuel s2 outIdx maxOutput out
      else if s.rowsSkipped < s.rowsToSkip then
        scanLoop docs batchSize fuel
          { s with currentHitIdx := s.currentHitIdx + 1, rowsSkipped := s.rowsSkipped + 1 }
          outIdx maxOutput out
      else
        let row := s.hits.getD s.currentHitIdx 0
        scanLoop docs batchSize fuel
          { s with currentHitIdx := s.currentHitIdx + 1, currentRow := s.currentRow + 1 }
          (outIdx + 1) maxOutput (out ++ [row])
    else (out, s)

/-- One `ElasticsearchQueryScan` call (`elasticsearch_query.cpp:585-722`):
returns no rows when finished or at the limit; otherwise the chunk capacity is
`STANDARD_VECTOR_SIZE` capped by the remaining limit, and the row loop runs. -/
def scanChunk (docs : List Nat) (batchSize loopFuel : Nat) (s : ScanState) :
    List Nat × ScanState :=
  if s.finished then ([], s)
  else if s.maxRows > 0 && (s.currentRow : Int) ≥ s.maxRows then
    ([], { s with finished := true })
  else
    let maxOutput : Nat :=
      if s.maxRows > 0 && (s.maxRows - (s.currentRow : Int)) < (STANDARD_VECTOR_SIZE : Int)
      then (s.maxRows - (s.currentRow : Int)).toNat
      else STANDARD_VECTOR_SIZE
    scanLoop docs batchSize loopFuel s 0 maxOutput []

/-- Driving the scan the way the engine does: pull chunks until one comes back
empty, concatenating the emitted rows (fuel-bounded). -/
def driveScan (docs : List Nat) (batchSize loopFuel : Nat) :
    Nat → ScanState → List Nat × ScanState
  | 0, s => ([], s)
  | fuel + 1, s =>
    let r := scanChunk docs batchSize loopFuel s
    if r.1.isEmpty then r
    else
      let rest := driveScan docs batchSize loopFuel fuel r.2
      (r.1 ++ rest.1, rest.2)

/-- C3: with pushed-down constant limit 5 and offset 3 over a store of 10
matching documents, the optimizer pushes `(5, 3)`, the scan emits exactly the
4th through 8th rows in store order, and a single page request (the minimum
able to gather `limit + offset = 8` rows, given the first page already asks
for 8) is issued; non-constant limit or offset values are never pushed down. -/
theorem limit_offset_pushdown_scan (a b c d e f g h i j : Nat) :
    tryLimitPushdown (.constVal 5) (.constVal 3) = some (5, 3) ∧
    (∀ o, tryLimitPushdown .exprVal o = none) ∧
    (∀ l, tryLimitPushdown l .exprVal = none) ∧
    (elasticsearchQueryInitGlobal [a, b, c, d, e, f, g, h, i, j] 5 3).2 = 8 ∧
    (driveScan [a, b, c, d, e, f, g, h, i, j] 8 20 5
      (elasticsearchQueryInitGlobal [a, b, c, d, e, f, g, h, i, j] 5 3).1).1 =
      [d, e, f, g, h] ∧
    (driveScan [a, b, c, d, e, f, g, h, i, j] 8 20 5
      (elasticsearchQueryInitGlobal [a, b, c, d, e, f, g, h, i, j] 5 3).1).2.pageRequests =
      1 := by
  refine ⟨rfl, ?_, ?_, rfl, rfl, rfl⟩
  · intro o; cases o <;> rfl
  · intro l; cases l <;> rfl


/-! ### Document sampling for array detection (`SampleDocuments`, C5) -/

/-- The dotted-path walk of `GetValueByPath`
(`elasticsearch_common.cpp:520-538`): every segment but the last must resolve
to an object; the final segment is looked up directly. -/
def getValueByPathAux : Json → List String → Option Json
  | _, [] => none
  | cur, [last] => jsonObjGet cur last
  | cur, key :: rest =>
      match jsonObjGet cur key with
      | some next => if next.isObjV then getValueByPathAux next rest else none
      | none => none

/-- `GetValueByPath` (`elasticsearch_common.cpp:520`). -/
def getValueByPath (obj : Json) (path : String) : Option Json :=
  if obj.isObjV then getValueByPathAux obj (path.splitOn ".") else none

/-- Does the document hold a JSON array at the given path?  (`GetValueByPath`
followed by `yyjson_is_arr`, `elasticsearch_common.cpp:1043-1046`.) -/
def hasArrayAt (src : Json) (path : String) : Bool :=
  match getValueByPath src path with
  | some v => v.isArrV
  | none => false

/-- Is some mapped path strictly below this path?
(`mp.find(field_path + ".") == 0` in the unmapped check.) -/
def isParentOfMapped (mapped : List String) (path : String) : Bool :=
  mapped.any (fun mp => mp.startsWith (path ++ "."))

mutual
/-- The `check_recursive` lambda of `SampleDocuments`
(`elasticsearch_common.cpp:957-1002`): does the object contain any field whose
path is neither mapped nor a parent of a mapped path? -/
def checkForUnmappedVal (mapped : List String) (o : Json) (p : String) : Bool :=
  match o with
  | .obj fields => checkForUnmappedFields mapped fields p
  | _ => false
termination_by sizeOf o

/-- Field iteration of the unmapped check. -/
def checkForUnmappedFields (mapped : List String) (fields : List (String × Json))
    (p : String) : Bool :=
  match fields with
  | [] => false
  | (k, v) :: rest =>
      let fieldPath := if p == "" then k else p ++ "." ++ k
      if !mapped.contains fieldPath && !isParentOfMapped mapped fieldPath then true
      else if v.isObjV && checkForUnmappedVal mapped v fieldPath then true
      else checkForUnmappedFields mapped rest p
termination_by sizeOf fields
end

/-- The geo-typed paths excluded from array detection (`skip_fields`,
`elasticsearch_common.cpp:948-954`; geo types use arrays for coordinates). -/
def skipFieldsOf (fieldPaths esTypes : List String) : Finset String :=
  (((fieldPaths.zip esTypes).filter
      (fun pr => pr.2 == "geo_point" || pr.2 == "geo_shape")).map Prod.fst).toFinset

/-- The per-document field loop of `process_batch`
(`elasticsearch_common.cpp:1031-1047`): for every field path not skipped and
not already detected, record it when the document holds an array there. -/
def detectArraysInDoc (skip : Finset String) (src : Json) :
    List String → Finset String → Finset String
  | [], acc => acc
  | p :: rest, acc =>
      if p ∈ skip then detectArraysInDoc skip src rest acc
      else if p ∈ acc then detectArraysInDoc skip src rest acc
      else if hasArrayAt src p then detectArraysInDoc skip src rest (insert p acc)
      else detectArraysInDoc skip src rest acc

/-- The mutable sampling state of `SampleDocuments`: detected array paths
(`result.array_fields`, a `std::set`), the unmapped-content flag, and the
document budget. -/
structure SampleState where
  arrayFields : Finset String
  hasUnmapped : Bool
  docsRemaining : Int

/-- `all_detected` (`elasticsearch_common.cpp:1005-1008`). -/
def allDetected (fieldPaths : List String) (skip : Finset String) (s : SampleState) : Bool :=
  decide (fieldPaths.length ≤ s.arrayFields.card + skip.card) && s.hasUnmapped

/-- `process_batch` (`elasticsearch_common.cpp:1011-1049`): per hit, stop when
the budget is exhausted or everything is detected; a hit without `_source` is
skipped without consuming budget; otherwise consume one document, update the
unmapped flag (only if not already set) and the detected array paths. -/
def processBatch (fieldPaths : List String) (skip : Finset String) (mapped : List String) :
    List Json → SampleState → SampleState
  | [], s => s
  | hit :: rest, s =>
    if s.docsRemaining ≤ 0 || allDetected fieldPaths skip s then s
    else
      match jsonObjGet hit "_source" with
      | none => processBatch fieldPaths skip mapped rest s
      | some src =>
          processBatch fieldPaths skip mapped rest
            { docsRemaining := s.docsRemaining - 1
              hasUnmapped :=
                if s.hasUnmapped then true else checkForUnmappedVal mapped src ""
              arrayFields := detectArraysInDoc skip src fieldPaths s.arrayFields }

/-- The scroll-driven batch loop of `SampleDocuments`
(`elasticsearch_common.cpp:1063-1098`): while budget remains and not all is
deteted, an empty batch ends the sampling, otherwise the batch is processed
and the next page is fetched.  `batches` are the pages the store serves in
order (an exhausted cursor serves the empty page). -/
def sampleLoop (fieldPaths : List String) (skip : Finset String) (mapped : List String) :
    List (List Json) → SampleState → SampleState
  | [], s => s
  | batch :: rest, s =>
    if 0 < s.docsRemaining && !allDetected fieldPaths skip s then
      if batch.isEmpty then s
      else sampleLoop fieldPaths skip mapped rest (processBatch fieldPaths skip mapped batch s)
    else s

/-- `SampleResult` (`elasticsearch_common.hpp`). -/
structure SampleResult where
  arrayFields : Finset String
  hasUnmappedFields : Bool

/-- `SampleDocuments` (`elasticsearch_common.cpp:938-1106`): nothing is
sampled when the sample size is non-positive or there are no mapped fields;
a failed initial search request degrades to the empty result (conservative:
no arrays, no unmapped content); otherwise the batch loop runs with budget
`sampleSize`.  `initialOk` is the success of the initial `ScrollSearch`. -/
def sampleDocuments (initialOk : Bool) (batches : List (List Json))
    (fieldPaths esTypes mapped : List String) (sampleSize : Int) : SampleResult :=
  if sampleSize ≤ 0 ∨ fieldPaths.isEmpty then ⟨∅, false⟩
  else if !initialOk then ⟨∅, false⟩
  else
    let skip := skipFieldsOf fieldPaths esTypes
    let final := sampleLoop fieldPaths skip mapped batches ⟨∅, false, sampleSize⟩
    ⟨final.arrayFields, final.hasUnmapped⟩

/-- The list-wrapping pass over the resolved column types
(`elasticsearch_common.cpp:1769-1776` and `elasticsearch_query.cpp:411-418`):
a path detected as array gets its type wrapped in LIST unless it already is a
list. -/
def wrapArrayTypes (fieldPaths : List String) (types : List LType)
    (arrayFields : Finset String) : List LType :=
  (fieldPaths.zip types).map
    (fun pr =>
      if pr.1 ∈ arrayFields then (if pr.2.isListT then pr.2 else .list pr.2) else pr.2)

/-- Number of hits in a batch carrying a `_source` (these are the ones that
consume the sampling budget). -/
def countSourced (hits : List Json) : Nat :=
  (hits.filter (fun h => (jsonObjGet h "_source").isSome)).length

/-- Total sourced hits over all pages. -/
def totalSourced (batches : List (List Json)) : Nat :=
  (batches.map countSourced).sum


/-- Membership after one document's detection pass: a path is recorded iff it
was already recorded, or it is a non-skipped field path at which the document
holds an array. -/
theorem mem_detectArraysInDoc (skip : Finset String) (src : Json) :
    ∀ (fps : List String) (acc : Finset String) (p : String),
      p ∈ detectArraysInDoc skip src fps acc ↔
        p ∈ acc ∨ (p ∈ fps ∧ p ∉ skip ∧ hasArrayAt src p = true) := by
  intro fps
  induction fps with
  | nil => simp [detectArraysInDoc]
  | cons q rest ih =>
      intro acc p
      unfold detectArraysInDoc
      by_cases h1 : q ∈ skip
      · rw [if_pos h1, ih]
        simp only [List.mem_cons]
        constructor
        · rintro (h | ⟨hm, hs, ha⟩)
          · exact Or.inl h
          · exact Or.inr ⟨Or.inr hm, hs, ha⟩
        · rintro (h | ⟨(rfl | hm), hs, ha⟩)
          · exact Or.inl h
          · exact absurd h1 hs
          · exact Or.inr ⟨hm, hs, ha⟩
      · rw [if_neg h1]
        by_cases h2 : q ∈ acc
        · rw [if_pos h2, ih]
          simp only [List.mem_cons]
          constructor
          · rintro (h | ⟨hm, hs, ha⟩)
            · exact Or.inl h
            · exact Or.inr ⟨Or.inr hm, hs, ha⟩
          · rintro (h | ⟨(rfl | hm), hs, ha⟩)
            · exact Or.inl h
            · exact Or.inl h2
            · exact Or.inr ⟨hm, hs, ha⟩
        · rw [if_neg h2]
          by_cases h3 : hasArrayAt src q = true
          · rw [if_pos h3, ih]
            simp only [Finset.mem_insert, List.mem_cons]
            constructor
            · rintro ((rfl | h) | ⟨hm, hs, ha⟩)
              · exact Or.inr ⟨Or.inl rfl, h1, h3⟩
              · exact Or.inl h
              · exact Or.inr ⟨Or.inr hm, hs, ha⟩
            · rintro (h | ⟨(rfl | hm), hs, ha⟩)
              · exact Or.inl (Or.inr h)
              · exact Or.inl (Or.inl rfl)
              · exact Or.inr ⟨hm, hs, ha⟩
          · rw [if_neg h3, ih]
            simp only [List.mem_cons]
            constructor
            · rintro (h | ⟨hm, hs, ha⟩)
              · exact Or.inl h
              · exact Or.inr ⟨Or.inr hm, hs, ha⟩
            · rintro (h | ⟨(rfl | hm), hs, ha⟩)
              · exact Or.inl h
              · exact absurd ha h3
              · exact Or.inr ⟨hm, hs, ha⟩


/-- Every skipped (geo) path is a field path. -/
theorem skipFieldsOf_subset (fieldPaths esTypes : List String) :
    skipFieldsOf fieldPaths esTypes ⊆ fieldPaths.toFinset := by
  intro p hp
  simp only [skipFieldsOf, List.mem_toFinset, List.mem_map, List.mem_filter] at hp
  obtain ⟨⟨p1, p2⟩, ⟨hmem, -⟩, rfl⟩ := hp
  exact List.mem_toFinset.mpr (List.of_mem_zip hmem).1

/-- Once the cardinality check of `all_detected` passes, every non-skipped
field path has been recorded as an array path. -/
theorem allDetected_coverage (fieldPaths : List String) (skip : Finset String)
    (s : SampleState) (hnd : fieldPaths.Nodup)
    (hsub : s.arrayFields ⊆ fieldPaths.toFinset \ skip)
    (hskip : skip ⊆ fieldPaths.toFinset)
    (had : allDetected fieldPaths skip s = true) :
    ∀ p ∈ fieldPaths, p ∉ skip → p ∈ s.arrayFields := by
  intro p hp hps
  have hcard : fieldPaths.length ≤ s.arrayFields.card + skip.card := by
    have := (Bool.and_eq_true _ _).mp had
    exact of_decide_eq_true this.1
  have hdisj : Disjoint s.arrayFields skip := by
    refine Finset.disjoint_left.mpr (fun a ha has => ?_)
    exact (Finset.mem_sdiff.mp (hsub ha)).2 has
  have hunion : s.arrayFields ∪ skip ⊆ fieldPaths.toFinset := by
    refine Finset.union_subset (fun a ha => (Finset.mem_sdiff.mp (hsub ha)).1) hskip
  have hlen : fieldPaths.toFinset.card = fieldPaths.length := by
    rw [List.toFinset_card_of_nodup hnd]
  have hcard2 : fieldPaths.toFinset.card ≤ (s.arrayFields ∪ skip).card := by
    rw [Finset.card_union_of_disjoint hdisj, hlen]
    exact hcard
  have heq : s.arrayFields ∪ skip = fieldPaths.toFinset :=
    Finset.eq_of_subset_of_card_le hunion hcard2 ▸ rfl
  have hpm : p ∈ s.arrayFields ∪ skip := by
    rw [Finset.eq_of_subset_of_card_le hunion hcard2]
    exact List.mem_toFinset.mpr hp
  rcases Finset.mem_union.mp hpm with h | h
  · exact h
  · exact absurd h hps

/-- Soundness of one batch: every newly recorded path is a non-skipped field
path at which some sourced hit of the batch holds an array. -/
theorem processBatch_sound (fieldPaths : List String) (skip : Finset String)
    (mapped : List String) :
    ∀ (hits : List Json) (s : SampleState) (p : String),
      p ∈ (processBatch fieldPaths skip mapped hits s).arrayFields →
      p ∈ s.arrayFields ∨
        (p ∈ fieldPaths ∧ p ∉ skip ∧ ∃ h ∈ hits, ∃ src,
          jsonObjGet h "_source" = some src ∧ hasArrayAt src p = true) := by
  intro hits
  induction hits with
  | nil => intro s p hp; exact Or.inl hp
  | cons hit rest ih =>
      intro s p hp
      rw [processBatch] at hp
      by_cases hstop : (s.docsRemaining ≤ 0 || allDetected fieldPaths skip s) = true
      · rw [if_pos hstop] at hp
        exact Or.inl hp
      · rw [if_neg hstop] at hp
        cases hsrc : jsonObjGet hit "_source" with
        | none =>
            rw [hsrc] at hp
            rcases ih s p hp with h | ⟨h1, h2, h3, h4, h5⟩
            · exact Or.inl h
            · exact Or.inr ⟨h1, h2, h3, List.mem_cons_of_mem _ h4, h5⟩
        | some src =>
            rw [hsrc] at hp
            rcases ih _ p hp with h | ⟨h1, h2, h3, h4, h5⟩
            · rcases (mem_detectArraysInDoc skip src fieldPaths s.arrayFields p).mp h with
                h' | ⟨h1, h2, h3⟩
              · exact Or.inl h'
              · exact Or.inr ⟨h1, h2, hit, List.mem_cons_self _ _, src, hsrc, h3⟩
            · exact Or.inr ⟨h1, h2, h3, List.mem_cons_of_mem _ h4, h5⟩

/-- One batch preserves the invariant that recorded paths are non-skipped
field paths. -/
theorem processBatch_inv (fieldPaths : List String) (skip : Finset String)
    (mapped : List String) :
    ∀ (hits : List Json) (s : SampleState),
      s.arrayFields ⊆ fieldPaths.toFinset \ skip →
      (processBatch fieldPaths skip mapped hits s).arrayFields ⊆
        fieldPaths.toFinset \ skip := by
  intro hits
  induction hits with
  | nil => intro s hs; exact hs
  | cons hit rest ih =>
      intro s hs
      rw [processBatch]
      by_cases hstop : (s.docsRemaining ≤ 0 || allDetected fieldPaths skip s) = true
      · rw [if_pos hstop]; exact hs
      · rw [if_neg hstop]
        cases hsrc : jsonObjGet hit "_source" with
        | none => exact ih s hs
        | some src =>
            refine ih _ (fun a ha => ?_)
            rcases (mem_detectArraysInDoc skip src fieldPaths s.arrayFields a).mp ha with
              h | ⟨h1, h2, -⟩
            · exact hs h
            · exact Finset.mem_sdiff.mpr ⟨List.mem_toFinset.mpr h1, h2⟩

/-- One batch consumes at most its sourced hits from the budget. -/
theorem processBatch_docsRemaining (fieldPaths : List String) (skip : Finset String)
    (mapped : List String) :
    ∀ (hits : List Json) (s : SampleState),
      s.docsRemaining - (countSourced hits : Int) ≤
        (processBatch fieldPaths skip mapped hits s).docsRemaining := by
  intro hits
  induction hits with
  | nil => intro s; simp [processBatch, countSourced]
  | cons hit rest ih =>
      intro s
      rw [processBatch]
      by_cases hstop : (s.docsRemaining ≤ 0 || allDetected fieldPaths skip s) = true
      · rw [if_pos hstop]
        have : (0 : Int) ≤ (countSourced (hit :: rest) : Int) := by positivity
        omega
      · rw [if_neg hstop]
        cases hsrc : jsonObjGet hit "_source" with
        | none =>
            have hcnt : countSourced (hit :: rest) = countSourced rest := by
              simp [countSourced, List.filter, hsrc]
            rw [hcnt]
            exact ih s
        | some src =>
            have hcnt : countSourced (hit :: rest) = countSourced rest + 1 := by
              simp [countSourced, List.filter, hsrc]
            dsimp only
            have := ih { docsRemaining := s.docsRemaining - 1
                         hasUnmapped :=
                           if s.hasUnmapped then true else checkForUnmappedVal mapped src ""
                         arrayFields := detectArraysInDoc skip src fieldPaths s.arrayFields }
            dsimp only at this
            rw [hcnt]
            omega


/-- A batch containing a sourced hit has a positive sourced count. -/
theorem countSourced_pos (hits : List Json) (h : Json) (src : Json)
    (hh : h ∈ hits) (hs : jsonObjGet h "_source" = some src) :
    1 ≤ countSourced hits := by
  have hmem : h ∈ hits.filter (fun x => (jsonObjGet x "_source").isSome) :=
    List.mem_filter.mpr ⟨hh, by simp [hs]⟩
  have := List.length_pos_of_mem hmem
  simpa [countSourced] using this

/-- Completeness of one batch: when the budget covers every sourced hit of the
batch, a non-skipped field path at which some sourced hit holds an array (or
that was already recorded) ends up recorded. -/
theorem processBatch_complete (fieldPaths : List String) (skip : Finset String)
    (mapped : List String) (hnd : fieldPaths.Nodup)
    (hskip : skip ⊆ fieldPaths.toFinset) :
    ∀ (hits : List Json) (s : SampleState) (p : String),
      s.arrayFields ⊆ fieldPaths.toFinset \ skip →
      (countSourced hits : Int) ≤ s.docsRemaining →
      p ∈ fieldPaths → p ∉ skip →
      (p ∈ s.arrayFields ∨ ∃ h ∈ hits, ∃ src,
        jsonObjGet h "_source" = some src ∧ hasArrayAt src p = true) →
      p ∈ (processBatch fieldPaths skip mapped hits s).arrayFields := by
  intro hits
  induction hits with
  | nil =>
      intro s p hsub hcnt hp hps hw
      rcases hw with h | ⟨h, hh, -⟩
      · exact h
      · exact absurd hh (List.not_mem_nil h)
  | cons hit rest ih =>
      intro s p hsub hcnt hp hps hw
      rw [processBatch]
      by_cases hstop : (s.docsRemaining ≤ 0 || allDetected fieldPaths skip s) = true
      · rw [if_pos hstop]
        rcases (show s.docsRemaining ≤ 0 ∨ allDetected fieldPaths skip s = true by
          simpa using hstop) with hd' | had
        · rcases hw with h | ⟨h, hh, src, hsrc, ha⟩
          · exact h
          · exfalso
            have := countSourced_pos (hit :: rest) h src hh hsrc
            omega
        · exact allDetected_coverage fieldPaths skip s hnd hsub hskip had p hp hps
      · rw [if_neg hstop]
        cases hsrc : jsonObjGet hit "_source" with
        | none =>
            have hcnt' : countSourced (hit :: rest) = countSourced rest := by
              simp [countSourced, List.filter, hsrc]
            refine ih s p hsub (by omega) hp hps ?_
            rcases hw with h | ⟨h, hh, src, hsrc', ha⟩
            · exact Or.inl h
            · rcases List.mem_cons.mp hh with rfl | hh'
              · rw [hsrc] at hsrc'; exact absurd hsrc' (by simp)
              · exact Or.inr ⟨h, hh', src, hsrc', ha⟩
        | some src =>
            have hcnt' : countSourced (hit :: rest) = countSourced rest + 1 := by
              simp [countSourced, List.filter, hsrc]
            dsimp only
            refine ih _ p (fun a ha => ?_) (by dsimp only; omega) hp hps ?_
            · rcases (mem_detectArraysInDoc skip src fieldPaths s.arrayFields a).mp ha with
                h | ⟨h1, h2, -⟩
              · exact hsub h
              · exact Finset.mem_sdiff.mpr ⟨List.mem_toFinset.mpr h1, h2⟩
            · rcases hw with h | ⟨h, hh, src', hsrc', ha⟩
              · refine Or.inl ?_
                exact (mem_detectArraysInDoc skip src fieldPaths s.arrayFields p).mpr (Or.inl h)
              · rcases List.mem_cons.mp hh with rfl | hh'
                · rw [hsrc] at hsrc'
                  obtain rfl : src = src' := by injection hsrc'
                  refine Or.inl ?_
                  exact (mem_detectArraysInDoc skip src fieldPaths s.arrayFields p).mpr
                    (Or.inr ⟨hp, hps, ha⟩)
                · exact Or.inr ⟨h, hh', src', hsrc', ha⟩


/-- Soundness of the batch loop: every recorded path has a sourced witness
among the served pages. -/
theorem sampleLoop_sound (fieldPaths : List String) (skip : Finset String)
    (mapped : List String) :
    ∀ (batches : List (List Json)) (s : SampleState) (p : String),
      p ∈ (sampleLoop fieldPaths skip mapped batches s).arrayFields →
      p ∈ s.arrayFields ∨
        (p ∈ fieldPaths ∧ p ∉ skip ∧ ∃ h ∈ batches.flatten, ∃ src,
          jsonObjGet h "_source" = some src ∧ hasArrayAt src p = true) := by
  intro batches
  induction batches with
  | nil => intro s p hp; exact Or.inl hp
  | cons batch rest ih =>
      intro s p hp
      rw [sampleLoop] at hp
      by_cases hc : (0 < s.docsRemaining && !allDetected fieldPaths skip s) = true
      · rw [if_pos hc] at hp
        by_cases hb : batch.isEmpty = true
        · rw [if_pos hb] at hp; exact Or.inl hp
        · rw [if_neg hb] at hp
          rcases ih _ p hp with h | ⟨h1, h2, h3, h4, h5⟩
          · rcases processBatch_sound fieldPaths skip mapped batch s p h with
              h' | ⟨g1, g2, g3, g4, g5⟩
            · exact Or.inl h'
            · refine Or.inr ⟨g1, g2, g3, ?_, g5⟩
              rw [List.flatten]
              exact List.mem_append.mpr (Or.inl g4)
          · refine Or.inr ⟨h1, h2, h3, ?_, h5⟩
            rw [List.flatten]
            exact List.mem_append.mpr (Or.inr h4)
      · rw [if_neg hc] at hp
        exact Or.inl hp

/-- The batch loop preserves the recorded-paths invariant. -/
theorem sampleLoop_inv (fieldPaths : List String) (skip : Finset String)
    (mapped : List String) :
    ∀ (batches : List (List Json)) (s : SampleState),
      s.arrayFields ⊆ fieldPaths.toFinset \ skip →
      (sampleLoop fieldPaths skip mapped batches s).arrayFields ⊆
        fieldPaths.toFinset \ skip := by
  intro batches
  induction batches with
  | nil => intro s hs; exact hs
  | cons batch rest ih =>
      intro s hs
      rw [sampleLoop]
      by_cases hc : (0 < s.docsRemaining && !allDetected fieldPaths skip s) = true
      · rw [if_pos hc]
        by_cases hb : batch.isEmpty = true
        · rw [if_pos hb]; exact hs
        · rw [if_neg hb]
          exact ih _ (processBatch_inv fieldPaths skip mapped batch s hs)
      · rw [if_neg hc]; exact hs

/-- Completeness of the batch loop: when the budget covers every sourced hit
served and no served page is empty, a non-skipped field path at which some
sourced hit holds an array ends up recorded. -/
theorem sampleLoop_complete (fieldPaths : List String) (skip : Finset String)
    (mapped : List String) (hnd : fieldPaths.Nodup)
    (hskip : skip ⊆ fieldPaths.toFinset) :
    ∀ (batches : List (List Json)) (s : SampleState) (p : String),
      s.arrayFields ⊆ fieldPaths.toFinset \ skip →
      (totalSourced batches : Int) ≤ s.docsRemaining →
      (∀ b ∈ batches, b ≠ []) →
      p ∈ fieldPaths → p ∉ skip →
      (p ∈ s.arrayFields ∨ ∃ h ∈ batches.flatten, ∃ src,
        jsonObjGet h "_source" = some src ∧ hasArrayAt src p = true) →
      p ∈ (sampleLoop fieldPaths skip mapped batches s).arrayFields := by
  intro batches
  induction batches with
  | nil =>
      intro s p hsub hcnt hne hp hps hw
      rcases hw with h | ⟨h, hh, -⟩
      · exact h
      · rw [List.flatten] at hh
        exact absurd hh (List.not_mem_nil h)
  | cons batch rest ih =>
      intro s p hsub hcnt hne hp hps hw
      have hw' : p ∈ s.arrayFields ∨
          (∃ h ∈ batch, ∃ src, jsonObjGet h "_source" = some src ∧
            hasArrayAt src p = true) ∨
          (∃ h ∈ rest.flatten, ∃ src, jsonObjGet h "_source" = some src ∧
            hasArrayAt src p = true) := by
        rcases hw with h | ⟨h, hh, src, h1, h2⟩
        · exact Or.inl h
        · rw [List.flatten] at hh
          rcases List.mem_append.mp hh with hb | hr
          · exact Or.inr (Or.inl ⟨h, hb, src, h1, h2⟩)
          · exact Or.inr (Or.inr ⟨h, hr, src, h1, h2⟩)
      have htot : totalSourced (batch :: rest) = countSourced batch + totalSourced rest := by
        simp [totalSourced]
      rw [sampleLoop]
      by_cases hc : (0 < s.docsRemaining && !allDetected fieldPaths skip s) = true
      · rw [if_pos hc]
        have hb : batch.isEmpty = false := by
          have := hne batch (List.mem_cons_self _ _)
          cases batch with
          | nil => exact absurd rfl this
          | cons x xs => rfl
        rw [hb]
        simp only [Bool.false_eq_true, if_false]
        refine ih _ p (processBatch_inv fieldPaths skip mapped batch s hsub) ?_
          (fun b hb2 => hne b (List.mem_cons_of_mem _ hb2)) hp hps ?_
        · have := processBatch_docsRemaining fieldPaths skip mapped batch s
          omega
        · rcases hw' with h | hbatch | hrest
          · exact Or.inl (processBatch_complete fieldPaths skip mapped hnd hskip batch s p
              hsub (by omega) hp hps (Or.inl h))
          · obtain ⟨h, hh, src, h1, h2⟩ := hbatch
            exact Or.inl (processBatch_complete fieldPaths skip mapped hnd hskip batch s p
              hsub (by omega) hp hps (Or.inr ⟨h, hh, src, h1, h2⟩))
          · exact Or.inr hrest
      · rw [if_neg hc]
        have hc' : s.docsRemaining ≤ 0 ∨ allDetected fieldPaths skip s = true := by
          by_cases hd : 0 < s.docsRemaining
          · refine Or.inr ?_
            by_contra had
            exact hc (by simp [hd, had])
          · exact Or.inl (by omega)
        rcases hc' with hd | had
        · rcases hw' with h | hbatch | hrest
          · exact h
          · obtain ⟨h, hh, src, h1, h2⟩ := hbatch
            have := countSourced_pos batch h src hh h1
            omega
          · obtain ⟨h, hh, src, h1, h2⟩ := hrest
            obtain ⟨b, hb1, hb2⟩ := List.mem_flatten.mp hh
            have := countSourced_pos b h src hb2 h1
            have hle : countSourced b ≤ totalSourced rest := by
              have hmem : countSourced b ∈ rest.map countSourced := List.mem_map_of_mem _ hb1
              exact List.single_le_sum (fun x _ => Nat.zero_le x) _ hmem
            omega
        · exact allDetected_coverage fieldPaths skip s hnd hsub hskip had p hp hps


/-- C5: over the documents actually served to the sampler (budget covering all
sourced hits, pages non-empty as the store serves them), (i) a mapped
non-geospatial path is recorded as an array path iff some sampled document
holds a JSON array at it — so its resolved column type is list-wrapped iff
such a document exists; (ii) geospatial (geo_point/geo_shape) paths are never
recorded; and (iii) a failed sampling request degrades to the empty result —
no arrays, no unmapped content detected — leaving every resolved column type
unchanged. -/
theorem sampling_array_detection (fieldPaths esTypes mapped : List String)
    (types : List LType) (batches : List (List Json)) (sampleSize : Int)
    (hnd : fieldPaths.Nodup)
    (hlen : fieldPaths.length = types.length)
    (hcnt : (totalSourced batches : Int) ≤ sampleSize)
    (hne : ∀ b ∈ batches, b ≠ [])
    (hpos : 0 < sampleSize)
    (hfp : fieldPaths ≠ []) :
    (∀ p ∈ fieldPaths, p ∉ skipFieldsOf fieldPaths esTypes →
      (p ∈ (sampleDocuments true batches fieldPaths esTypes mapped sampleSize).arrayFields ↔
        ∃ h ∈ batches.flatten, ∃ src,
          jsonObjGet h "_source" = some src ∧ hasArrayAt src p = true)) ∧
    (∀ p ∈ skipFieldsOf fieldPaths esTypes,
      p ∉ (sampleDocuments true batches fieldPaths esTypes mapped sampleSize).arrayFields) ∧
    (∀ i : Nat,
      (wrapArrayTypes fieldPaths types
        (sampleDocuments true batches fieldPaths esTypes mapped sampleSize).arrayFields)[i]? =
      ((fieldPaths.zip types)[i]?).map (fun pr =>
        if pr.1 ∈ (sampleDocuments true batches fieldPaths esTypes mapped
            sampleSize).arrayFields then
          (if pr.2.isListT then pr.2 else .list pr.2)
        else pr.2)) ∧
    (sampleDocuments false batches fieldPaths esTypes mapped sampleSize =
      ⟨∅, false⟩) ∧
    wrapArrayTypes fieldPaths types
      (sampleDocuments false batches fieldPaths esTypes mapped sampleSize).arrayFields =
      types := by
  have hnotearly : ¬ (sampleSize ≤ 0 ∨ fieldPaths.isEmpty = true) := by
    push_neg
    exact ⟨by omega, by simpa [List.isEmpty_iff] using hfp⟩
  have hrun : sampleDocuments true batches fieldPaths esTypes mapped sampleSize =
      ⟨(sampleLoop fieldPaths (skipFieldsOf fieldPaths esTypes) mapped batches
          ⟨∅, false, sampleSize⟩).arrayFields,
       (sampleLoop fieldPaths (skipFieldsOf fieldPaths esTypes) mapped batches
          ⟨∅, false, sampleSize⟩).hasUnmapped⟩ := by
    unfold sampleDocuments
    rw [if_neg hnotearly]
    rfl
  have hfail : sampleDocuments false batches fieldPaths esTypes mapped sampleSize =
      ⟨∅, false⟩ := by
    unfold sampleDocuments
    rw [if_neg hnotearly]
    rfl
  have hemptysub : (⟨∅, false, sampleSize⟩ : SampleState).arrayFields ⊆
      fieldPaths.toFinset \ skipFieldsOf fieldPaths esTypes := by
    intro a ha
    exact absurd ha (Finset.not_mem_empty a)
  refine ⟨?_, ?_, ?_, hfail, ?_⟩
  · intro p hp hps
    rw [hrun]
    constructor
    · intro hmem
      rcases sampleLoop_sound fieldPaths (skipFieldsOf fieldPaths esTypes) mapped batches
          ⟨∅, false, sampleSize⟩ p hmem with h | ⟨-, -, h3, h4, h5⟩
      · exact absurd h (Finset.not_mem_empty p)
      · exact ⟨h3, h4, h5⟩
    · intro ⟨h, hh, src, h1, h2⟩
      exact sampleLoop_complete fieldPaths (skipFieldsOf fieldPaths esTypes) mapped hnd
        (skipFieldsOf_subset fieldPaths esTypes) batches ⟨∅, false, sampleSize⟩ p
        hemptysub hcnt hne hp hps (Or.inr ⟨h, hh, src, h1, h2⟩)
  · intro p hps hmem
    rw [hrun] at hmem
    have := sampleLoop_inv fieldPaths (skipFieldsOf fieldPaths esTypes) mapped batches
      ⟨∅, false, sampleSize⟩ hemptysub hmem
    exact (Finset.mem_sdiff.mp this).2 hps
  · intro i
    simp [wrapArrayTypes, List.getElem?_map]
  · rw [hfail]
    have : wrapArrayTypes fieldPaths types (∅ : Finset String) =
        (fieldPaths.zip types).map Prod.snd := by
      unfold wrapArrayTypes
      refine List.map_congr_left (fun pr _ => ?_)
      rw [if_neg (Finset.not_mem_empty pr.1)]
    rw [this, List.map_snd_zip fieldPaths types (le_of_eq hlen.symm)]


/-- A sample document: an array of strings under `tags`, a coordinate-pair
array under the geo field `loc`. -/
def sampleHitDoc : Json :=
  .obj [("_source", .obj
    [("tags", .arr [.str "a"]), ("loc", .arr [.num 1, .num 2])])]

/-- Witness for `sampling_array_detection`: one sampled document with an array
at the non-geo path `tags` and a coordinate array at the geo path `loc`. -/
theorem sampling_array_detection_witness :
    ("tags" ∈ (sampleDocuments true [[sampleHitDoc]] ["tags", "loc"]
        ["keyword", "geo_point"] ["tags", "loc"] 100).arrayFields ↔
      ∃ h ∈ [[sampleHitDoc]].flatten, ∃ src,
        jsonObjGet h "_source" = some src ∧ hasArrayAt src "tags" = true) ∧
    ("loc" ∉ (sampleDocuments true [[sampleHitDoc]] ["tags", "loc"]
        ["keyword", "geo_point"] ["tags", "loc"] 100).arrayFields) ∧
    sampleDocuments false [[sampleHitDoc]] ["tags", "loc"] ["keyword", "geo_point"]
      ["tags", "loc"] 100 = ⟨∅, false⟩ := by
  have h := sampling_array_detection ["tags", "loc"] ["keyword", "geo_point"]
    ["tags", "loc"] [.varchar, .varchar] [[sampleHitDoc]] 100 (by decide) (by decide)
    (by decide) (by intro b hb; rw [List.mem_singleton] at hb; subst hb; simp)
    (by decide) (by decide)
  exact ⟨h.1 "tags" (by decide) (by decide), h.2.1 "loc" (by decide), h.2.2.2.1⟩

end ESExt
